import Mathlib

/-!
Verification development for the SaaS business simulation repository
(`src/_user_growth.py` and `src/data.py`).

Modelling conventions:
* Calendar dates are integers (days since an arbitrary epoch); the half-open
  date range `[start, end)` of consecutive days is `dateRange start end_`.
* NumPy's global random state is modelled by an abstract state type `σ`
  together with an `Rng σ` record holding one abstract draw function per draw
  site of the source (each draw site has a fixed distribution whose parameters
  only shape the abstract draw, so they are absorbed into the record field).
  Every draw consumes the state deterministically; `np.random.seed` resets it.
* `astype(int)` is truncation toward zero, `astypeInt`.
* Python exceptions are modelled with `Except`; a function whose modelled
  code has no raise site always returns `.ok`.
* `np.random.choice(pool, size=n, replace=False, p=w)` is modelled by
  `np_random_choice`: its error branches mirror NumPy's checks in order
  (empty population, sample larger than population, negative size) and the
  successful branch delegates the selection to an abstract `oracle`;
  `ValidOracle` records the guarantees a without-replacement draw provides
  (correct length, no duplicates, members of the pool).
-/

namespace SaaSim

/-- NumPy `astype(int)`: truncation toward zero. -/
def astypeInt (q : ℚ) : ℤ := if 0 ≤ q then ⌊q⌋ else -⌊-q⌋

/-- `pd.date_range(start, end, closed='left')` as a list of integer days. -/
def dateRange (start end_ : ℤ) : List ℤ :=
  (List.range (end_ - start).toNat).map (fun (i : ℕ) => start + (i : ℤ))

/-- Abstract model of the global NumPy random state: one abstract draw
function per draw site of the source.  `growthStep` stands for one draw
from `N(g^(1/365), 0.0005)` (line 72 of `_user_growth.py`), `activeBase`
for `N(0.25, 0.03)`, `activeStep` for `N(0, 0.002)`, `skewAge` for one
`skewnorm(a=2)` variate, `countryPick` for one `choice([0,1], p=[0.2,0.8])`
draw (`true` standing for `1`), `samplePick` for one index draw of a pandas
`sample` call. -/
structure Rng (σ : Type) where
  seedFn : ℤ → σ
  growthStep : σ → ℚ × σ
  activeBase : σ → ℚ × σ
  activeStep : σ → ℚ × σ
  skewAge : σ → ℚ × σ
  countryPick : σ → Bool × σ
  samplePick : σ → ℕ × σ

/-- `if seed: np.random.seed(seed)` — Python truthiness: `None` and `0` are
falsy, so a supplied seed of `0` does NOT reseed. -/
def seedIf {σ : Type} (rng : Rng σ) (seed : Option ℤ) (s : σ) : σ :=
  match seed with
  | none => s
  | some v => if v = 0 then s else rng.seedFn v

/-- Draw `n` values sequentially, threading the state. -/
def drawN {σ α : Type} (f : σ → α × σ) : ℕ → σ → List α × σ
  | 0, s => ([], s)
  | n + 1, s =>
    let r := f s
    let rest := drawN f n r.2
    (r.1 :: rest.1, rest.2)

/-- Running product with accumulator (NumPy `cumprod`). -/
def cumprodFrom (acc : ℚ) : List ℚ → List ℚ
  | [] => []
  | x :: xs => (acc * x) :: cumprodFrom (acc * x) xs

/-- NumPy `cumprod`. -/
def cumprod (l : List ℚ) : List ℚ := cumprodFrom 1 l

/-- Running sum with accumulator (NumPy `cumsum`). -/
def cumsumFrom (acc : ℚ) : List ℚ → List ℚ
  | [] => []
  | x :: xs => (acc + x) :: cumsumFrom (acc + x) xs

/-- NumPy `cumsum`. -/
def cumsum (l : List ℚ) : List ℚ := cumsumFrom 0 l

/-- Core of `get_user_counts_by_date` (`_user_growth.py` lines 63-77):
build the date index, reseed if the seed is truthy, draw one growth step per
day, and return `(start_users * steps.cumprod()).astype(int)` indexed by
date.  The `g` parameter (`approx_yoy_growth_rate`) only fixes the centre
`g^(1/365)` of the step distribution, which is absorbed into the abstract
`growthStep` draw. -/
def userCountsCore {σ : Type} (rng : Rng σ) (start end_ : ℤ) (g : ℚ)
    (start_users : ℤ) (seed : Option ℤ) (s0 : σ) : List (ℤ × ℤ) × σ :=
  let dates := dateRange start end_
  let s1 := seedIf rng seed s0
  let r := drawN rng.growthStep dates.length s1
  (dates.zip ((cumprod r.1).map (fun c => astypeInt ((start_users : ℚ) * c))), r.2)

/-- Core of `_get_active_user_p_by_date` (`_user_growth.py` lines 5-35):
reseed if truthy, draw the base rate, draw one step per day, and return
`(ACTIVE_P + steps.cumsum()).clip(0, 1)` indexed by date. -/
def activeUserPCore {σ : Type} (rng : Rng σ) (start end_ : ℤ)
    (seed : Option ℤ) (s0 : σ) : List (ℤ × ℚ) × σ :=
  let dates := dateRange start end_
  let s1 := seedIf rng seed s0
  let rb := rng.activeBase s1
  let rs := drawN rng.activeStep dates.length rb.2
  (dates.zip ((cumsum rs.1).map (fun c => max 0 (min 1 (rb.1 + c)))), rs.2)

/-- Core of `get_active_user_counts_by_date` (`_user_growth.py` lines
80-108): the DAU-fraction series is computed first, then the user-count
series, then `(users_by_date * active_user_p_by_date).astype(int)`. -/
def activeUserCountsCore {σ : Type} (rng : Rng σ) (start end_ : ℤ) (g : ℚ)
    (start_users : ℤ) (seed : Option ℤ) (s0 : σ) : List (ℤ × ℤ) × σ :=
  let rp := activeUserPCore rng start end_ seed s0
  let ru := userCountsCore rng start end_ g start_users seed rp.2
  (List.zipWith (fun u p => (u.1, astypeInt ((u.2 : ℚ) * p.2))) ru.1 rp.1, ru.2)

/-- Errors of the growth-curve functions: the spec's claimed
`InvalidParameter` rejection (which the code never produces), and Python's
`TypeError` at the growth-step draw — for a negative growth rate
`g ** (1/365)` is a complex number in Python 3 and `np.random.normal`
rejects a complex centre. -/
inductive GrowthError
  | invalidParameter
  | typeError
deriving DecidableEq, Repr

/-- `get_user_counts_by_date` (`_user_growth.py` lines 38-77).  The Python
function performs no parameter validation; its one raise site is the
growth-step draw (line 72): when the growth rate is negative,
`approx_yoy_growth_rate ** (1/365)` is a complex number in Python 3 and
`np.random.normal` raises a TypeError while validating its centre (it does
so irrespective of the series length, so the error does not depend on the
date range).  For every nonnegative growth rate nothing can raise. -/
def get_user_counts_by_date {σ : Type} (rng : Rng σ) (start end_ : ℤ) (g : ℚ)
    (start_users : ℤ) (seed : Option ℤ) (s0 : σ) :
    Except GrowthError (List (ℤ × ℤ) × σ) :=
  if g < 0 then .error .typeError
  else .ok (userCountsCore rng start end_ g start_users seed s0)

/-- `get_active_user_counts_by_date` (`_user_growth.py` lines 80-108): it
computes the DAU-fraction series and then calls `get_user_counts_by_date`,
inheriting that function's TypeError for a negative growth rate; it has no
validation and no raise site of its own. -/
def get_active_user_counts_by_date {σ : Type} (rng : Rng σ) (start end_ : ℤ)
    (g : ℚ) (start_users : ℤ) (seed : Option ℤ) (s0 : σ) :
    Except GrowthError (List (ℤ × ℤ) × σ) :=
  if g < 0 then .error .typeError
  else .ok (activeUserCountsCore rng start end_ g start_users seed s0)

/-- `_get_uuid_values` (`data.py` lines 61-64): fresh identifiers from an
unseeded source, modelled as an arbitrary stream not connected to `Rng`. -/
def _get_uuid_values (stream : ℕ → String) (n : ℕ) : List String :=
  (List.range n).map stream

/-- `_get_age_dist_values` (`data.py` lines 67-75): reseed if truthy, draw
`total_users` skew-normal variates, apply `(27 + 10*z).astype(int).clip(min=16)`. -/
def _get_age_dist_values {σ : Type} (rng : Rng σ) (total_users : ℕ)
    (seed : Option ℤ) (s : σ) : List ℤ × σ :=
  let s1 := seedIf rng seed s
  let r := drawN rng.skewAge total_users s1
  (r.1.map (fun z => max (astypeInt (27 + 10 * z)) 16), r.2)

/-- `_get_user_country_values` (`data.py` lines 78-84): reseed if truthy,
draw `total_users` binary picks, map `1 ↦ "US"`, `0 ↦ "CA"`. -/
def _get_user_country_values {σ : Type} (rng : Rng σ) (total_users : ℕ)
    (seed : Option ℤ) (s : σ) : List String × σ :=
  let s1 := seedIf rng seed s
  let r := drawN rng.countryPick total_users s1
  (r.1.map (fun b => if b then "US" else "CA"), r.2)

/-- `_fill_activation_dates` (`data.py` lines 87-107).  The legacy window
`pd.DateOffset(years=1)` is modelled as 365 days and the abstract index
draw is reduced mod the window length.  pandas `sample(..., random_state=rs)`
draws from the global state when `rs` is `None` (the only way the source
calls it, since the caller omits `seed`) and from a fresh generator seeded
with `rs` otherwise, leaving the global state untouched.  `new_dates`
repeats each date by its day-over-day user-count delta (`dropna` removes the
first, undefined, delta). -/
def _fill_activation_dates {σ : Type} (rng : Rng σ)
    (new_users_by_date : List (ℤ × Option ℤ)) (start_users : ℤ)
    (seed : Option ℤ) (s : σ) : List ℤ × σ :=
  let legacy_end := ((new_users_by_date.map Prod.fst).min?).getD 0
  let legacy_range := (List.range 365).map (fun (i : ℕ) => legacy_end - 365 + (i : ℤ))
  let rdraw := drawN rng.samplePick start_users.toNat
      (match seed with | some v => rng.seedFn v | none => s)
  let s2 := match seed with | some _ => s | none => rdraw.2
  let legacy_dates := rdraw.1.map (fun i => legacy_range.getD (i % 365) 0)
  let new_dates := new_users_by_date.flatMap
      (fun p => match p.2 with | none => [] | some c => List.replicate c.toNat p.1)
  (legacy_dates ++ new_dates, s2)

/-- `_get_new_user_counts_by_date` (`data.py` lines 51-58):
`users_by_date - users_by_date.shift(1)`; the first entry is `NaN`,
modelled as `none`. -/
def _get_new_user_counts_by_date {σ : Type} (rng : Rng σ) (start end_ : ℤ)
    (g : ℚ) (start_users : ℤ) (seed : Option ℤ) (s0 : σ) :
    List (ℤ × Option ℤ) × σ :=
  let r := userCountsCore rng start end_ g start_users seed s0
  let vals := r.1.map Prod.snd
  (r.1.enum.map (fun ip =>
      (ip.2.1, if ip.1 = 0 then none else some (ip.2.2 - vals.getD (ip.1 - 1) 0))), r.2)

/-- The user table, column-wise, as `get_user_dataset` builds it. -/
structure UserTable where
  user_id : List String
  activation_date : List ℤ
  country : List String
  age : List ℤ
deriving DecidableEq, Repr

/-- `get_user_dataset` (`data.py` lines 9-48): compute the day-over-day new
user counts (a seeded computation), total the population, then fill the
columns in source order — ids from the unseeded stream, ages, countries and
activation dates from the (re)seeded global state.  Note that the source
pipes `_fill_activation_dates` WITHOUT a seed argument, so its pandas
`sample` draws from the global state. -/
def get_user_dataset {σ : Type} (rng : Rng σ) (uuidStream : ℕ → String)
    (start end_ : ℤ) (g : ℚ) (start_users : ℤ) (seed : Option ℤ) (s0 : σ) :
    UserTable × σ :=
  let rn := _get_new_user_counts_by_date rng start end_ g start_users seed s0
  let new_users_over_time := (rn.1.filterMap Prod.snd).sum
  let total_users := (start_users + new_users_over_time).toNat
  let ra := _get_age_dist_values rng total_users seed rn.2
  let rc := _get_user_country_values rng total_users seed ra.2
  let rf := _fill_activation_dates rng rn.1 start_users none rc.2
  ({ user_id := _get_uuid_values uuidStream total_users
     activation_date := rf.1
     country := rc.1
     age := ra.1 }, rf.2)

/-- A row of the user table as the activity sampler consumes it
(`users_df` indexed by `user_id` with its `activation_date` column). -/
structure User where
  uid : String
  activation_date : ℤ
deriving DecidableEq, Repr

/-- Sum of the decimal digit characters of an identifier string
(`data.py` lines 175-178: the regex `(\d*\.?\d+)` collects the digit runs
of the id, which are then summed digit by digit). -/
def digit_sum (s : String) : ℕ :=
  (s.data.filter Char.isDigit).foldl (fun a c => a + (c.toNat - 48)) 0

/-- Stickiness score (`data.py` lines 180-181): squared digit sum, floor
divided by 100 (integer Series `** 2 // 100`). -/
def stickiness_score (uid : String) : ℕ := digit_sum uid ^ 2 / 100

/-- Lexicographic comparison of character lists by code point (the order
`np.unique` sorts id strings in). -/
def charListLt : List Char → List Char → Bool
  | [], [] => false
  | [], _ :: _ => true
  | _ :: _, [] => false
  | c :: cs, e :: es =>
    if c.toNat < e.toNat then true
    else if e.toNat < c.toNat then false
    else charListLt cs es

/-- Insertion step of a structural string sort. -/
def insertSorted (x : String) : List String → List String
  | [] => [x]
  | y :: ys => if charListLt x.data y.data then x :: y :: ys else y :: insertSorted x ys

/-- Structural insertion sort on strings (used to model `np.unique`'s
sorted output; claims only depend on membership and distinctness, not on
the sort order). -/
def sortStrings : List String → List String
  | [] => []
  | x :: xs => insertSorted x (sortStrings xs)

/-- `np.unique` on a list of id strings: sorted distinct values. -/
def npUnique (l : List String) : List String :=
  (sortStrings l).dedup

/-- Activation date of an id in a user table (unique under a `Nodup` id
column, matching the pandas index lookup). -/
def lookup_activation (df : List User) (uid : String) : ℤ :=
  ((df.find? (fun u_ => u_.uid == uid)).map User.activation_date).getD 0

/-- `days_since_activation` column (`data.py` line 189) for an id. -/
def days_since_activation (df : List User) (d : ℤ) (uid : String) : ℕ :=
  (d - lookup_activation df uid).toNat

/-- `stickiness_decay_factor` (`data.py` line 225):
`0.8 * 0.9 ** days_since_activation + 0.1`. -/
def stickiness_decay_factor (days : ℕ) : ℚ := 8/10 * (9/10 : ℚ) ^ days + 1/10

/-- Combined pre-normalization weight (`data.py` line 228):
`0.2 * stickiness + 0.8 * (40 * stickiness_decay_factor)`. -/
def draw_weight (df : List User) (d : ℤ) (uid : String) : ℚ :=
  2/10 * (stickiness_score uid : ℚ)
    + 8/10 * (40 * stickiness_decay_factor (days_since_activation df d uid))

/-- `existing_users` (`data.py` lines 218-219): the distinct ids with
`days_since_activation > 0`, i.e. activation strictly before the date. -/
def existing_pool (df : List User) (d : ℤ) : List String :=
  npUnique ((df.filter (fun u_ => decide (0 < d - u_.activation_date))).map User.uid)

/-- The pre-normalization weight vector over the existing pool (pandas
aligns the stickiness Series and the decay column by id index; under
distinct ids this is the pointwise combination over the pool). -/
def draw_weights (df : List User) (d : ℤ) : List ℚ :=
  (existing_pool df d).map (draw_weight df d)

/-- `stickiness_weights / stickiness_weights.sum()` (`data.py` line 230). -/
def normalized_weights (df : List User) (d : ℤ) : List ℚ :=
  (draw_weights df d).map (fun w => w / (draw_weights df d).sum)

/-- The distinct `ValueError`s NumPy's legacy `RandomState.choice` raises on
the paths the sampler can reach: empty population (raised even for
`size=0`), sample larger than population with `replace=False`, negative
sample size. -/
inductive NpError
  | emptyPool
  | insufficientPopulation
  | negativeSize
deriving DecidableEq, Repr

/-- The type of the abstract without-replacement selection. -/
abbrev ChoiceOracle := List String → List ℚ → ℕ → List String

/-- `np.random.choice(pool, size, replace=False, p)` with NumPy's checks in
source order; the random selection itself is the abstract `oracle`. -/
def np_random_choice (oracle : ChoiceOracle) (pool : List String)
    (p : List ℚ) (size : ℤ) : Except NpError (List String) :=
  if pool.length = 0 then .error .emptyPool
  else if (pool.length : ℤ) < size then .error .insufficientPopulation
  else if size < 0 then .error .negativeSize
  else .ok (oracle pool p size.toNat)

/-- `_draw_existing_users_to_set_as_active` (`data.py` lines 217-237):
filter the `days_since_activation > 0` rows, take the distinct ids, build
the combined weights, normalize them to sum to 1, and draw `n_draws` ids
without replacement. -/
def _draw_existing_users_to_set_as_active (oracle : ChoiceOracle)
    (existing_users_df : List User) (d : ℤ) (n_draws : ℤ) :
    Except NpError (List String) :=
  np_random_choice oracle (existing_pool existing_users_df d)
    (normalized_weights existing_users_df d) n_draws

/-- The distinct ids activating exactly on `d` (the "new today" users). -/
def new_today (df : List User) (d : ℤ) : List String :=
  npUnique ((df.filter (fun u_ => decide (d - u_.activation_date = 0))).map User.uid)

/-- One iteration of the per-date loop of `_sample_user_ids` (`data.py`
lines 183-206): restrict to users with `activation_date <= d`, force the
distinct new-today users active, and fill the remaining
`dau - len(new_users)` slots from the existing pool.  There is no clamping
of the remaining-slot count before it is passed as the draw size. -/
def _sample_user_ids_on_date (oracle : ChoiceOracle) (users_df : List User)
    (dau : ℤ) (d : ℤ) : Except NpError (List String) :=
  let filtered_df := users_df.filter (fun u_ => decide (u_.activation_date ≤ d))
  let new_users := npUnique
      ((filtered_df.filter (fun u_ => decide (d - u_.activation_date = 0))).map User.uid)
  let active_users_left_to_add := dau - (new_users.length : ℤ)
  Except.map (fun ex => new_users ++ ex)
    (_draw_existing_users_to_set_as_active oracle filtered_df d active_users_left_to_add)

/-- The date loop of `_sample_user_ids` (`data.py` lines 183-210): the
assignment `df.loc[df['session_start_date'] == d, 'user_id'] = ...` fills
the `dau` rows of date `d` with the selected ids, so the loop yields one
`(date, user_id)` row per selected id, in date order. -/
def _sample_user_ids (oracle : ChoiceOracle) (users_df : List User)
    (auc : ℤ → ℤ) : List ℤ → Except NpError (List (ℤ × String))
  | [] => .ok []
  | d :: ds => do
    let uids ← _sample_user_ids_on_date oracle users_df (auc d) d
    let rest ← _sample_user_ids oracle users_df auc ds
    pure (uids.map (fun x => (d, x)) ++ rest)

/-- `.loc[d]` lookup in the DAU series. -/
def aucFun (l : List (ℤ × ℤ)) (d : ℤ) : ℤ :=
  ((l.find? (fun p => p.1 == d)).map Prod.snd).getD 0

/-- A row of the activity table. -/
structure Session where
  session_id : String
  session_start_date : ℤ
  user_id : String
deriving DecidableEq, Repr

/-- Attach the unseeded session ids (`_get_uuid_values(len(activity_df))`)
to the rows in order. -/
def attachIds (sess : ℕ → String) : ℕ → List (ℤ × String) → List Session
  | _, [] => []
  | i, r :: rs =>
    { session_id := sess i, session_start_date := r.1, user_id := r.2 }
      :: attachIds sess (i + 1) rs

/-- Number of user-table rows carrying a given id. -/
def matchCount (users_df : List User) (uid : String) : ℕ :=
  (users_df.filter (fun u_ => u_.uid == uid)).length

/-- The `merge(users_df['activation_date'], how='left', left_on='user_id',
right_index=True)` of `data.py` lines 212-214 followed by the
`drop(columns=['user_activation_date'])` of line 164: after dropping the
joined column the only surviving effect of the left-merge is row
multiplication — each session row is repeated once per matching user row
(and kept once when unmatched). -/
def mergeSessions (users_df : List User) (rows : List Session) : List Session :=
  rows.flatMap (fun r => List.replicate (max (matchCount users_df r.user_id) 1) r)

/-- `get_user_activity_dataset` (`data.py` lines 110-167): recompute the DAU
series from the parameters, build one session row per DAU unit per date
(`repeat` raises on a negative count, modelled by the up-front check), give
each row an unseeded session id, sample the user ids per date, and apply
the activation-date merge/drop. -/
def get_user_activity_dataset {σ : Type} (rng : Rng σ) (oracle : ChoiceOracle)
    (sess : ℕ → String) (start end_ : ℤ) (g : ℚ) (start_users : ℤ)
    (seed : Option ℤ) (s0 : σ) (users_df : List User) :
    Except NpError (List Session) :=
  let auc := (activeUserCountsCore rng start end_ g start_users seed s0).1
  if auc.any (fun p => decide (p.2 < 0)) then .error .negativeSize
  else do
    let rows ← _sample_user_ids oracle users_df (aucFun auc) (dateRange start end_)
    pure (mergeSessions users_df (attachIds sess 0 rows))

/-- What NumPy guarantees of a successful without-replacement draw: exactly
`n` pairwise distinct members of the population. -/
def ValidOracle (oracle : ChoiceOracle) : Prop :=
  ∀ pool p n, pool.Nodup → n ≤ pool.length →
    (oracle pool p n).length = n ∧ (oracle pool p n).Nodup ∧
      ∀ x ∈ oracle pool p n, x ∈ pool

/-- A concrete valid selection: take the first `n` pool members. -/
def takeOracle : ChoiceOracle := fun pool _ n => pool.take n

/-- Spec wording (§4.3): `decay_factor(days_since_activation) =
0.8 × 0.9^(days_since_activation) + 0.1`. -/
def spec_decay_factor (days : ℕ) : ℚ := 8/10 * (9/10 : ℚ) ^ days + 1/10

/-- Spec wording (§4.3): weights `0.2 × normalized_stickiness + 0.8 ×
(40 × decay_factor)`, with the stickiness score as precomputed per user. -/
def spec_combined_weight (stickiness : ℚ) (days : ℕ) : ℚ :=
  2/10 * stickiness + 8/10 * (40 * spec_decay_factor days)

/-- A concrete random-state model used to evaluate the embedding on
explicit inputs: the state is a counter, each draw returns a fixed value
(the skew-normal site returns the current counter, so that distinct states
yield distinct draws) and advances the counter. -/
def rngA : Rng ℕ where
  seedFn v := v.natAbs
  growthStep s := (1, s + 1)
  activeBase s := (1, s + 1)
  activeStep s := (0, s + 1)
  skewAge s := ((s : ℚ), s + 1)
  countryPick s := (true, s + 1)
  samplePick s := (0, s + 1)

/-- A concrete random-state model whose growth-step draw is `1.003`,
a typical value of a draw from `N(3^(1/365), 0.0005)`. -/
def rngK : Rng ℕ where
  seedFn v := v.natAbs
  growthStep s := (1003/1000, s + 1)
  activeBase s := (1/4, s + 1)
  activeStep s := (0, s + 1)
  skewAge s := (0, s + 1)
  countryPick s := (true, s + 1)
  samplePick s := (0, s + 1)

/-- A concrete three-user table (all activated before the observed range). -/
def usersW : List User := [⟨"a1", -3⟩, ⟨"b2", -3⟩, ⟨"c3", -3⟩]

/-- A concrete session-id stream. -/
def sessW : ℕ → String := fun _ => "s"

/-- The activity table `get_user_activity_dataset` produces for `usersW`
over the two-day range `[0, 2)` with `rngA`, `takeOracle` and `sessW`. -/
def tW : List Session :=
  [⟨"s", 0, "a1"⟩, ⟨"s", 0, "b2"⟩, ⟨"s", 1, "a1"⟩, ⟨"s", 1, "b2"⟩]

/- ### General helper lemmas -/

lemma astypeInt_mono {a b : ℚ} (h : a ≤ b) : astypeInt a ≤ astypeInt b := by
  unfold astypeInt
  split_ifs with ha hb hb
  · exact Int.floor_le_floor h
  · exact absurd (ha.trans h) hb
  · have h1 : (0:ℤ) ≤ ⌊-a⌋ := Int.floor_nonneg.mpr (by push_neg at ha; linarith)
    have h2 : (0:ℤ) ≤ ⌊b⌋ := Int.floor_nonneg.mpr hb
    omega
  · have := Int.floor_le_floor (neg_le_neg h)
    omega

lemma drawN_length {σ α : Type} (f : σ → α × σ) (n : ℕ) (s : σ) :
    (drawN f n s).1.length = n := by
  induction n generalizing s with
  | zero => rfl
  | succ m ih => simp [drawN, ih]

lemma drawN_mem_ge_one {σ : Type} (f : σ → ℚ × σ) (hf : ∀ s, 1 ≤ (f s).1)
    (n : ℕ) (s : σ) : ∀ x ∈ (drawN f n s).1, 1 ≤ x := by
  induction n generalizing s with
  | zero => intro x hx; simp [drawN] at hx
  | succ m ih =>
    intro x hx
    simp only [drawN, List.mem_cons] at hx
    rcases hx with rfl | hx
    · exact hf s
    · exact ih _ x hx

lemma cumprodFrom_chain (l : List ℚ) : ∀ acc : ℚ, 0 < acc → (∀ x ∈ l, 1 ≤ x) →
    List.Chain' (· ≤ ·) (cumprodFrom acc l) ∧
      ∀ y ∈ cumprodFrom acc l, acc ≤ y ∧ 0 < y := by
  induction l with
  | nil => intro acc _ _; simp [cumprodFrom]
  | cons x xs ih =>
    intro acc hacc hl
    have hx : 1 ≤ x := hl x (List.mem_cons_self x xs)
    have hax : 0 < acc * x := mul_pos hacc (lt_of_lt_of_le one_pos hx)
    have haax : acc ≤ acc * x := le_mul_of_one_le_right hacc.le hx
    obtain ⟨hch, hmem⟩ := ih (acc * x) hax (fun y hy => hl y (List.mem_cons_of_mem x hy))
    constructor
    · rw [cumprodFrom, List.chain'_cons']
      exact ⟨fun b hb => (hmem b (List.mem_of_mem_head? hb)).1, hch⟩
    · intro y hy
      rw [cumprodFrom, List.mem_cons] at hy
      rcases hy with rfl | hy
      · exact ⟨haax, hax⟩
      · obtain ⟨h1, h2⟩ := hmem y hy
        exact ⟨haax.trans h1, h2⟩

lemma sum_map_div (l : List ℚ) (c : ℚ) :
    (l.map (fun w => w / c)).sum = l.sum / c := by
  induction l with
  | nil => simp
  | cons x xs ih => simp [ih, add_div]

lemma dateRange_nodup (start end_ : ℤ) : (dateRange start end_).Nodup := by
  have hinj : Function.Injective (fun i : ℕ => start + (i : ℤ)) := by
    intro a b h
    simp only at h
    omega
  exact (List.nodup_range _).map hinj

lemma npUnique_nodup (l : List String) : (npUnique l).Nodup :=
  List.nodup_dedup _

lemma mem_insertSorted {a x : String} {l : List String} :
    a ∈ insertSorted x l ↔ a = x ∨ a ∈ l := by
  induction l with
  | nil => simp [insertSorted]
  | cons y ys ih =>
    by_cases h : charListLt x.data y.data
    · simp [insertSorted, h]
    · simp [insertSorted, h, ih]
      tauto

lemma mem_sortStrings {a : String} {l : List String} :
    a ∈ sortStrings l ↔ a ∈ l := by
  induction l with
  | nil => simp [sortStrings]
  | cons x xs ih => simp [sortStrings, mem_insertSorted, ih]

lemma mem_npUnique {a : String} {l : List String} : a ∈ npUnique l ↔ a ∈ l := by
  unfold npUnique
  rw [List.mem_dedup, mem_sortStrings]

lemma cumprodFrom_length (l : List ℚ) : ∀ acc, (cumprodFrom acc l).length = l.length := by
  induction l with
  | nil => intro acc; rfl
  | cons x xs ih => intro acc; simp [cumprodFrom, ih]

lemma dateRange_length (start end_ : ℤ) :
    (dateRange start end_).length = (end_ - start).toNat := by
  unfold dateRange
  rw [List.length_map, List.length_range]

lemma userCounts_map_snd {σ : Type} (rng : Rng σ) (start end_ : ℤ) (g : ℚ)
    (start_users : ℤ) (seed : Option ℤ) (s0 : σ) :
    (userCountsCore rng start end_ g start_users seed s0).1.map Prod.snd
      = (cumprod (drawN rng.growthStep (dateRange start end_).length
            (seedIf rng seed s0)).1).map
          (fun c => astypeInt ((start_users : ℚ) * c)) := by
  unfold userCountsCore
  apply List.map_snd_zip
  rw [List.length_map, cumprod, cumprodFrom_length, drawN_length]

/- ### C7: parameter validation of the growth-curve functions -/

/-- C7 counterexample: the spec claims invalid parameters (`end_date ≤
start_date`, `growth_rate < 1`, `start_users < 0`) are rejected with an
`InvalidParameter` error before any computation.  The source performs no
validation at all: at the simultaneously invalid input `start = end = 0`,
`g = 1/2`, `start_users = -5`, both growth-curve functions return a normal
`.ok` (empty-series) result, not an error. -/
theorem growth_invalid_params_not_rejected :
    ((0:ℤ) ≤ 0) ∧ ((1/2 : ℚ) < 1) ∧ ((-5:ℤ) < 0) ∧
    get_user_counts_by_date rngK 0 0 (1/2) (-5) none 0 = .ok ([], 0) ∧
    get_active_user_counts_by_date rngK 0 0 (1/2) (-5) none 0 = .ok ([], 1) := by
  have hg : ¬ (1/2 : ℚ) < 0 := by norm_num
  refine ⟨le_refl 0, by norm_num, by norm_num, ?_, ?_⟩
  · rw [get_user_counts_by_date, if_neg hg]
    rfl
  · rw [get_active_user_counts_by_date, if_neg hg]
    rfl

/-- C7 amended: the growth-curve functions perform no parameter validation
and never produce the spec's `InvalidParameter` rejection — for every
input with a nonnegative growth rate, including `end ≤ start`,
`growth_rate < 1` and negative `start_users`, they return `.ok` of the
normally computed series (empty when `end_ ≤ start`); their only failure
mode is the TypeError at the step draw when the growth rate is negative
(`g ** (1/365)` is complex in Python 3), which occurs at the draw site,
not as an up-front parameter check. -/
theorem growth_functions_never_reject {σ : Type} (rng : Rng σ) (start end_ : ℤ)
    (g : ℚ) (start_users : ℤ) (seed : Option ℤ) (s0 : σ) :
    (0 ≤ g →
      get_user_counts_by_date rng start end_ g start_users seed s0
          = .ok (userCountsCore rng start end_ g start_users seed s0)
      ∧ get_active_user_counts_by_date rng start end_ g start_users seed s0
          = .ok (activeUserCountsCore rng start end_ g start_users seed s0))
    ∧ (g < 0 →
      get_user_counts_by_date rng start end_ g start_users seed s0
          = .error .typeError
      ∧ get_active_user_counts_by_date rng start end_ g start_users seed s0
          = .error .typeError)
    ∧ (end_ ≤ start → (userCountsCore rng start end_ g start_users seed s0).1 = []) := by
  refine ⟨fun hg => ⟨?_, ?_⟩, fun hg => ⟨?_, ?_⟩, fun h => ?_⟩
  · rw [get_user_counts_by_date, if_neg (not_lt.mpr hg)]
  · rw [get_active_user_counts_by_date, if_neg (not_lt.mpr hg)]
  · rw [get_user_counts_by_date, if_pos hg]
  · rw [get_active_user_counts_by_date, if_pos hg]
  · have h0 : (end_ - start).toNat = 0 := Int.toNat_eq_zero.mpr (by omega)
    simp [userCountsCore, dateRange, h0]

/-- C7 witness: the amended statement at concrete inputs — an invalid but
nonnegative-growth input (`end_ = 3 ≤ 5 = start`) returns `.ok` of an
empty series, and a negative growth rate returns the TypeError. -/
theorem growth_functions_never_reject_witness :
    get_user_counts_by_date rngK 5 3 2 7 none 0
        = .ok (userCountsCore rngK 5 3 2 7 none 0)
    ∧ get_active_user_counts_by_date rngK 5 3 2 7 none 0
        = .ok (activeUserCountsCore rngK 5 3 2 7 none 0)
    ∧ (userCountsCore rngK 5 3 2 7 none 0).1 = []
    ∧ get_user_counts_by_date rngK 0 1 (-2) 7 none 0 = .error .typeError
    ∧ get_active_user_counts_by_date rngK 0 1 (-2) 7 none 0 = .error .typeError := by
  obtain ⟨h1, -, h3⟩ := growth_functions_never_reject rngK 5 3 2 7 none 0
  obtain ⟨-, h5, -⟩ := growth_functions_never_reject rngK 0 1 (-2) 7 none 0
  obtain ⟨ha, hb⟩ := h1 (by norm_num)
  obtain ⟨hc, hd⟩ := h5 (by norm_num)
  exact ⟨ha, hb, h3 (by norm_num), hc, hd⟩

/- ### C9: shape of the total-user series -/

/-- C9 counterexample: the claim says the first value of the series equals
`start_users`; in the source the first value already has one growth step
applied (`int(start_users * steps[0])`, since `cumprod` includes the first
step).  With the typical step draw `1.003` and the valid parameters
`[0, 1)`, growth rate 3, `start_users = 10000`, seed 7, the first value is
`10030 ≠ 10000`. -/
theorem user_counts_first_value_counterexample :
    get_user_counts_by_date rngK 0 1 3 10000 (some 7) 0 = .ok ([(0, 10030)], 8)
    ∧ (10030 : ℤ) ≠ 10000 := by
  constructor
  · norm_num [get_user_counts_by_date, userCountsCore, dateRange, seedIf, rngK, drawN,
      cumprod, cumprodFrom, astypeInt, List.range_succ]
  · decide

/-- C9 amended: for nonnegative `start_users` and any run in which every
drawn daily step factor is at least 1 (the regime the spec's "drift > 0"
proviso describes; the normal draws are not guaranteed to satisfy it), the
series is non-decreasing; and its first value is
`int(start_users * steps[0])` — one step of growth past `start_users`,
not `start_users` itself. -/
theorem user_counts_monotone_when_steps_ge_one {σ : Type} (rng : Rng σ)
    (start end_ : ℤ) (g : ℚ) (start_users : ℤ) (seed : Option ℤ) (s0 : σ)
    (hu : 0 ≤ start_users) (hsteps : ∀ s : σ, 1 ≤ (rng.growthStep s).1) :
    List.Chain' (· ≤ ·)
        ((userCountsCore rng start end_ g start_users seed s0).1.map Prod.snd)
    ∧ (start < end_ →
        ((userCountsCore rng start end_ g start_users seed s0).1.map Prod.snd).head?
          = some (astypeInt ((start_users : ℚ)
              * (rng.growthStep (seedIf rng seed s0)).1))) := by
  rw [userCounts_map_snd]
  have hmono : ∀ a b : ℚ, a ≤ b →
      astypeInt ((start_users : ℚ) * a) ≤ astypeInt ((start_users : ℚ) * b) := by
    intro a b hab
    apply astypeInt_mono
    have hcast : (0:ℚ) ≤ (start_users : ℚ) := by exact_mod_cast hu
    exact mul_le_mul_of_nonneg_left hab hcast
  constructor
  · exact List.chain'_map_of_chain' _ hmono
      (cumprodFrom_chain _ 1 one_pos (drawN_mem_ge_one _ hsteps _ _)).1
  · intro h
    have hlen : (dateRange start end_).length = ((end_ - start).toNat - 1) + 1 := by
      rw [dateRange_length]; omega
    rw [hlen]
    simp [drawN, cumprod, cumprodFrom]

/-- C9 witness: the amended statement at a concrete input whose step draws
are all exactly 1. -/
theorem user_counts_monotone_when_steps_ge_one_witness :
    List.Chain' (· ≤ ·)
        ((userCountsCore rngA 0 2 3 5 none 0).1.map Prod.snd)
    ∧ ((userCountsCore rngA 0 2 3 5 none 0).1.map Prod.snd).head?
        = some (astypeInt ((5 : ℚ) * (rngA.growthStep (seedIf rngA none 0)).1)) := by
  have h := user_counts_monotone_when_steps_ge_one rngA 0 2 3 5 none 0
    (by norm_num) (fun _ => le_refl 1)
  exact ⟨h.1, h.2 (by norm_num)⟩

/- ### C6 and C10: the sampling weights -/

lemma draw_weight_ge (df : List User) (d : ℤ) (uid : String) :
    16/5 ≤ draw_weight df d uid := by
  unfold draw_weight stickiness_decay_factor
  have h1 : (0:ℚ) ≤ (stickiness_score uid : ℚ) := Nat.cast_nonneg _
  have h2 : (0:ℚ) < (9/10 : ℚ) ^ days_since_activation df d uid := pow_pos (by norm_num) _
  nlinarith

lemma mem_draw_weights_ge {df : List User} {d : ℤ} {w : ℚ}
    (hw : w ∈ draw_weights df d) : 16/5 ≤ w := by
  simp only [draw_weights, List.mem_map] at hw
  obtain ⟨uid, _, rfl⟩ := hw
  exact draw_weight_ge df d uid

lemma draw_weights_sum_pos {df : List User} {d : ℤ}
    (h : existing_pool df d ≠ []) : 0 < (draw_weights df d).sum := by
  apply List.sum_pos
  · intro x hx
    exact lt_of_lt_of_le (by norm_num) (mem_draw_weights_ge hx)
  · simpa [draw_weights] using h

/-- C6: on every date the weight vector the draw uses is exactly the spec's
`0.2 × stickiness + 0.8 × (40 × decay_factor)` over the existing pool,
re-normalized to sum to 1 (the normalization is well defined whenever the
pool is nonempty). -/
theorem sampling_weights_match_spec_formula (df : List User) (d : ℤ) :
    normalized_weights df d
      = (existing_pool df d).map (fun uid =>
          spec_combined_weight (stickiness_score uid : ℚ) (days_since_activation df d uid)
            / ((existing_pool df d).map (fun v =>
                spec_combined_weight (stickiness_score v : ℚ)
                  (days_since_activation df d v))).sum)
    ∧ (existing_pool df d ≠ [] → (normalized_weights df d).sum = 1) := by
  constructor
  · rw [normalized_weights, draw_weights, List.map_map]
    rfl
  · intro h
    rw [normalized_weights, sum_map_div,
      div_self (ne_of_gt (draw_weights_sum_pos h))]

/-- C6 witness: the normalization sums to 1 on a concrete one-user pool. -/
theorem sampling_weights_match_spec_formula_witness :
    (normalized_weights [⟨"u1", 0⟩] 1).sum = 1 :=
  (sampling_weights_match_spec_formula [⟨"u1", 0⟩] 1).2 (by decide)

/-- C10: every pre-normalization weight is at least `0.8 × 40 × 0.1 = 3.2`
(the stickiness score is a nonnegative integer and the decay factor
exceeds 0.1), so every normalized weight is strictly positive: each
existing user has nonzero selection probability. -/
theorem existing_user_weights_positive (df : List User) (d : ℤ) :
    (∀ w ∈ draw_weights df d, 16/5 ≤ w)
    ∧ (∀ q ∈ normalized_weights df d, 0 < q) := by
  refine ⟨fun w hw => mem_draw_weights_ge hw, fun q hq => ?_⟩
  simp only [normalized_weights, List.mem_map] at hq
  obtain ⟨w, hw, rfl⟩ := hq
  have hne : existing_pool df d ≠ [] := by
    intro hnil
    simp [draw_weights, hnil] at hw
  exact div_pos (lt_of_lt_of_le (by norm_num) (mem_draw_weights_ge hw))
    (draw_weights_sum_pos hne)

/- ### Inversion lemmas for the activity sampler -/

lemma np_random_choice_ok {oracle : ChoiceOracle} {pool : List String}
    {p : List ℚ} {size : ℤ} {l : List String}
    (h : np_random_choice oracle pool p size = .ok l) :
    pool ≠ [] ∧ 0 ≤ size ∧ size ≤ (pool.length : ℤ)
      ∧ l = oracle pool p size.toNat := by
  unfold np_random_choice at h
  by_cases h1 : pool.length = 0
  · rw [if_pos h1] at h
    exact Except.noConfusion h
  rw [if_neg h1] at h
  by_cases h2 : (pool.length : ℤ) < size
  · rw [if_pos h2] at h
    exact Except.noConfusion h
  rw [if_neg h2] at h
  by_cases h3 : size < 0
  · rw [if_pos h3] at h
    exact Except.noConfusion h
  rw [if_neg h3] at h
  refine ⟨fun hnil => h1 (by rw [hnil]; rfl), by omega, by omega, ?_⟩
  injection h with h4
  exact h4.symm

lemma draw_ok_bounds {oracle : ChoiceOracle} {df : List User} {d n : ℤ}
    {l : List String}
    (h : _draw_existing_users_to_set_as_active oracle df d n = .ok l) :
    0 ≤ n ∧ n ≤ ((existing_pool df d).length : ℤ) := by
  unfold _draw_existing_users_to_set_as_active at h
  obtain ⟨-, h0, hle, -⟩ := np_random_choice_ok h
  exact ⟨h0, hle⟩

lemma draw_ok {oracle : ChoiceOracle} {df : List User} {d n : ℤ}
    {l : List String} (hor : ValidOracle oracle)
    (h : _draw_existing_users_to_set_as_active oracle df d n = .ok l) :
    0 ≤ n ∧ n ≤ ((existing_pool df d).length : ℤ) ∧ (l.length : ℤ) = n
      ∧ l.Nodup ∧ ∀ x ∈ l, x ∈ existing_pool df d := by
  unfold _draw_existing_users_to_set_as_active at h
  obtain ⟨hne, h0, hle, rfl⟩ := np_random_choice_ok h
  obtain ⟨hlen, hnd, hsub⟩ := hor (existing_pool df d) (normalized_weights df d)
    n.toNat (npUnique_nodup _) (by omega)
  exact ⟨h0, hle, by rw [hlen]; omega, hnd, hsub⟩

lemma filter_le_filter_pos (users_df : List User) (d : ℤ) :
    ((users_df.filter (fun u_ => decide (u_.activation_date ≤ d))).filter
        (fun u_ => decide (0 < d - u_.activation_date)))
      = users_df.filter (fun u_ => decide (0 < d - u_.activation_date)) := by
  rw [List.filter_filter]
  apply List.filter_congr
  intro u_ _
  by_cases h : 0 < d - u_.activation_date
  · have h2 : u_.activation_date ≤ d := by omega
    simp [h, h2]
  · simp [h]

lemma existing_pool_filter_le (users_df : List User) (d : ℤ) :
    existing_pool (users_df.filter (fun u_ => decide (u_.activation_date ≤ d))) d
      = existing_pool users_df d := by
  unfold existing_pool
  rw [filter_le_filter_pos]

lemma new_today_filter_le (users_df : List User) (d : ℤ) :
    npUnique (((users_df.filter (fun u_ => decide (u_.activation_date ≤ d))).filter
        (fun u_ => decide (d - u_.activation_date = 0))).map User.uid)
      = new_today users_df d := by
  unfold new_today
  rw [List.filter_filter]
  congr 2
  apply List.filter_congr
  intro u_ _
  by_cases h : d - u_.activation_date = 0
  · have h2 : u_.activation_date ≤ d := by omega
    simp [h, h2]
  · simp [h]

lemma on_date_ok_bounds {oracle : ChoiceOracle} {users_df : List User}
    {dau d : ℤ} {uids : List String}
    (h : _sample_user_ids_on_date oracle users_df dau d = .ok uids) :
    0 ≤ dau - ((new_today users_df d).length : ℤ)
    ∧ dau - ((new_today users_df d).length : ℤ)
        ≤ ((existing_pool users_df d).length : ℤ) := by
  simp only [_sample_user_ids_on_date] at h
  rw [new_today_filter_le] at h
  cases hdraw : _draw_existing_users_to_set_as_active oracle
      (users_df.filter (fun u_ => decide (u_.activation_date ≤ d))) d
      (dau - ((new_today users_df d).length : ℤ)) with
  | error e => rw [hdraw] at h; exact Except.noConfusion h
  | ok ex =>
    obtain ⟨h0, hle⟩ := draw_ok_bounds hdraw
    rw [existing_pool_filter_le] at hle
    exact ⟨h0, hle⟩

lemma on_date_ok {oracle : ChoiceOracle} {users_df : List User}
    {dau d : ℤ} {uids : List String} (hor : ValidOracle oracle)
    (h : _sample_user_ids_on_date oracle users_df dau d = .ok uids) :
    ∃ ex, uids = new_today users_df d ++ ex
      ∧ ex.Nodup ∧ (∀ x ∈ ex, x ∈ existing_pool users_df d)
      ∧ 0 ≤ dau - ((new_today users_df d).length : ℤ)
      ∧ (ex.length : ℤ) = dau - ((new_today users_df d).length : ℤ) := by
  simp only [_sample_user_ids_on_date] at h
  rw [new_today_filter_le] at h
  cases hdraw : _draw_existing_users_to_set_as_active oracle
      (users_df.filter (fun u_ => decide (u_.activation_date ≤ d))) d
      (dau - ((new_today users_df d).length : ℤ)) with
  | error e => rw [hdraw] at h; exact Except.noConfusion h
  | ok ex =>
    rw [hdraw] at h
    simp only [Except.map] at h
    injection h with h
    obtain ⟨h0, hle, hlen, hnd, hsub⟩ := draw_ok hor hdraw
    rw [existing_pool_filter_le] at hsub
    exact ⟨ex, h.symm, hnd, hsub, h0, hlen⟩

lemma sample_user_ids_cons {oracle : ChoiceOracle} {users_df : List User}
    {auc : ℤ → ℤ} {d : ℤ} {ds : List ℤ} {rows : List (ℤ × String)}
    (h : _sample_user_ids oracle users_df auc (d :: ds) = .ok rows) :
    ∃ uids rest, _sample_user_ids_on_date oracle users_df (auc d) d = .ok uids
      ∧ _sample_user_ids oracle users_df auc ds = .ok rest
      ∧ rows = uids.map (fun x => (d, x)) ++ rest := by
  simp only [_sample_user_ids] at h
  cases h1 : _sample_user_ids_on_date oracle users_df (auc d) d with
  | error e => rw [h1] at h; simp [Bind.bind, Except.bind] at h
  | ok uids =>
    rw [h1] at h
    cases h2 : _sample_user_ids oracle users_df auc ds with
    | error e => rw [h2] at h; simp [Bind.bind, Except.bind] at h
    | ok rest =>
      rw [h2] at h
      simp only [Bind.bind, Except.bind, pure, Except.pure] at h
      injection h with h
      exact ⟨uids, rest, rfl, rfl, h.symm⟩

lemma sample_user_ids_mem {oracle : ChoiceOracle} {users_df : List User}
    {auc : ℤ → ℤ} : ∀ {ds : List ℤ} {rows : List (ℤ × String)},
    _sample_user_ids oracle users_df auc ds = .ok rows →
    ∀ r ∈ rows, r.1 ∈ ds ∧ ∃ uids,
      _sample_user_ids_on_date oracle users_df (auc r.1) r.1 = .ok uids
        ∧ r.2 ∈ uids := by
  intro ds
  induction ds with
  | nil =>
    intro rows h r hr
    simp only [_sample_user_ids] at h
    injection h with h
    subst h
    simp at hr
  | cons d ds ih =>
    intro rows h r hr
    obtain ⟨uids, rest, hu, hrest, rfl⟩ := sample_user_ids_cons h
    rcases List.mem_append.mp hr with hr2 | hr2
    · obtain ⟨x, hx, rfl⟩ := List.mem_map.mp hr2
      exact ⟨List.mem_cons_self _ _, uids, hu, hx⟩
    · obtain ⟨hmem, huids⟩ := ih hrest r hr2
      exact ⟨List.mem_cons_of_mem _ hmem, huids⟩

lemma sample_user_ids_filter {oracle : ChoiceOracle} {users_df : List User}
    {auc : ℤ → ℤ} : ∀ {ds : List ℤ} {rows : List (ℤ × String)}, ds.Nodup →
    _sample_user_ids oracle users_df auc ds = .ok rows →
    ∀ {d : ℤ}, d ∈ ds → ∃ uids,
      _sample_user_ids_on_date oracle users_df (auc d) d = .ok uids
        ∧ (rows.filter (fun r => decide (r.1 = d))).map Prod.snd = uids := by
  intro ds
  induction ds with
  | nil =>
    intro rows _ _ d hd
    simp at hd
  | cons d0 ds ih =>
    intro rows hnd h d hd
    obtain ⟨uids, rest, hu, hrest, rfl⟩ := sample_user_ids_cons h
    rw [List.filter_append, List.map_append]
    rcases List.mem_cons.mp hd with rfl | hd2
    · refine ⟨uids, hu, ?_⟩
      have hblock : (uids.map (fun x => (d, x))).filter
          (fun r => decide (r.1 = d)) = uids.map (fun x => (d, x)) := by
        apply List.filter_eq_self.mpr
        intro a ha
        obtain ⟨x, -, rfl⟩ := List.mem_map.mp ha
        simp
      have hrest0 : rest.filter (fun r => decide (r.1 = d)) = [] := by
        rw [List.filter_eq_nil_iff]
        intro r hr
        have hmem := (sample_user_ids_mem hrest r hr).1
        have hne : r.1 ≠ d := fun hEq => (List.nodup_cons.mp hnd).1 (hEq ▸ hmem)
        simp [hne]
      rw [hblock, hrest0]
      simp [List.map_map]
    · have hd0ne : d0 ≠ d := fun hEq => (List.nodup_cons.mp hnd).1 (hEq ▸ hd2)
      have hblock : (uids.map (fun x => (d0, x))).filter
          (fun r => decide (r.1 = d)) = [] := by
        rw [List.filter_eq_nil_iff]
        intro r hr
        obtain ⟨x, -, rfl⟩ := List.mem_map.mp hr
        simp [hd0ne]
      rw [hblock]
      obtain ⟨uids2, hu2, hfe⟩ := ih (List.nodup_cons.mp hnd).2 hrest hd2
      exact ⟨uids2, hu2, by simpa using hfe⟩

lemma activity_ok_inv {σ : Type} {rng : Rng σ} {oracle : ChoiceOracle}
    {sess : ℕ → String} {start end_ : ℤ} {g : ℚ} {start_users : ℤ}
    {seed : Option ℤ} {s0 : σ} {users_df : List User} {t : List Session}
    (h : get_user_activity_dataset rng oracle sess start end_ g start_users
        seed s0 users_df = .ok t) :
    ∃ rows, _sample_user_ids oracle users_df
        (aucFun (activeUserCountsCore rng start end_ g start_users seed s0).1)
        (dateRange start end_) = .ok rows
      ∧ t = mergeSessions users_df (attachIds sess 0 rows) := by
  simp only [get_user_activity_dataset] at h
  split_ifs at h with hneg
  cases hrows : _sample_user_ids oracle users_df
      (aucFun (activeUserCountsCore rng start end_ g start_users seed s0).1)
      (dateRange start end_) with
  | error e => rw [hrows] at h; simp [Bind.bind, Except.bind] at h
  | ok rows =>
    rw [hrows] at h
    simp only [Bind.bind, Except.bind, pure, Except.pure] at h
    injection h with h
    exact ⟨rows, rfl, h.symm⟩

/-- C10 witness: the bound and positivity at a concrete pool member. -/
theorem existing_user_weights_positive_witness :
    16/5 ≤ draw_weight [⟨"u7", 0⟩] 1 "u7"
    ∧ 0 < draw_weight [⟨"u7", 0⟩] 1 "u7" / (draw_weights [⟨"u7", 0⟩] 1).sum := by
  have hmem : draw_weight [⟨"u7", 0⟩] 1 "u7" ∈ draw_weights [⟨"u7", 0⟩] 1 := by
    rw [draw_weights]
    exact List.mem_map_of_mem _ (by decide)
  refine ⟨(existing_user_weights_positive [⟨"u7", 0⟩] 1).1 _ hmem,
    (existing_user_weights_positive [⟨"u7", 0⟩] 1).2 _ ?_⟩
  rw [normalized_weights]
  exact List.mem_map_of_mem _ hmem

/- ### C1: DAU exceeding the eligible existing pool -/

/-- C1: whenever the remaining slot count (that date's DAU value minus the
count of users activating that day) exceeds the existing-pool size, the
draw is refused — for a nonempty pool with exactly NumPy's
cannot-take-a-larger-sample error (the spec's `InsufficientPopulation`) —
and the activity generator surfaces an error instead of returning a short
or truncated sample. -/
theorem insufficient_population_raises :
    (∀ (oracle : ChoiceOracle) (df : List User) (d n : ℤ),
        existing_pool df d ≠ [] → ((existing_pool df d).length : ℤ) < n →
        _draw_existing_users_to_set_as_active oracle df d n
          = .error .insufficientPopulation)
    ∧ (∀ (σ : Type) (rng : Rng σ) (oracle : ChoiceOracle) (sess : ℕ → String)
        (start end_ : ℤ) (g : ℚ) (start_users : ℤ) (seed : Option ℤ) (s0 : σ)
        (users_df : List User) (d : ℤ), d ∈ dateRange start end_ →
        ((existing_pool users_df d).length : ℤ)
            < aucFun (activeUserCountsCore rng start end_ g start_users seed s0).1 d
              - ((new_today users_df d).length : ℤ) →
        ∃ e, get_user_activity_dataset rng oracle sess start end_ g start_users
              seed s0 users_df = .error e) := by
  constructor
  · intro oracle df d n hne hlt
    unfold _draw_existing_users_to_set_as_active np_random_choice
    rw [if_neg (fun h0 => hne (List.length_eq_zero.mp h0)), if_pos hlt]
  · intro σ rng oracle sess start end_ g start_users seed s0 users_df d hd hlt
    cases hres : get_user_activity_dataset rng oracle sess start end_ g
        start_users seed s0 users_df with
    | error e => exact ⟨e, rfl⟩
    | ok t =>
      exfalso
      obtain ⟨rows, hrows, -⟩ := activity_ok_inv hres
      obtain ⟨uids, hu, -⟩ :=
        sample_user_ids_filter (dateRange_nodup start end_) hrows hd
      obtain ⟨-, hle⟩ := on_date_ok_bounds hu
      omega

/-- C1 witness: a date whose remaining slot count exceeds the pool — the
per-date draw yields `InsufficientPopulation`, and a full run whose single
date requires 1 existing user from an empty pool yields an error. -/
theorem insufficient_population_raises_witness :
    _draw_existing_users_to_set_as_active takeOracle [⟨"a1", -1⟩] 0 5
        = .error .insufficientPopulation
    ∧ ∃ e, get_user_activity_dataset rngA takeOracle (fun i => toString i)
          0 1 3 2 none 0 [⟨"a1", 0⟩] = .error e := by
  constructor
  · exact insufficient_population_raises.1 takeOracle [⟨"a1", -1⟩] 0 5
      (by decide) (by decide)
  · have hauc : (activeUserCountsCore rngA 0 1 3 2 none 0).1 = [(0, 2)] := by
      norm_num [activeUserCountsCore, activeUserPCore, userCountsCore, dateRange,
        seedIf, rngA, drawN, cumsum, cumsumFrom, cumprod, cumprodFrom, astypeInt,
        List.range_succ]
    refine insufficient_population_raises.2 ℕ rngA takeOracle (fun i => toString i)
      0 1 3 2 none 0 [⟨"a1", 0⟩] 0 (by decide) ?_
    rw [hauc]
    decide

/- ### C3: more new-today users than DAU slots -/

/-- C3 counterexample: the claim says that when the new-today count exceeds
the date's DAU value the sampler clamps the remaining-slot count to 0 and
silently produces zero additional sampled users without raising.  On the
concrete date with two new-today users, DAU 1 and a nonempty existing
pool, the remaining-slot count `1 - 2 = -1` is passed unclamped as the
draw size and the sampler raises NumPy's negative-size error instead of
returning a result. -/
theorem new_users_exceed_dau_no_clamp_counterexample :
    (1 : ℤ) < ((new_today [⟨"a1", 5⟩, ⟨"b2", 5⟩, ⟨"c3", 1⟩] 5).length : ℤ)
    ∧ _sample_user_ids_on_date takeOracle [⟨"a1", 5⟩, ⟨"b2", 5⟩, ⟨"c3", 1⟩] 1 5
        = .error .negativeSize := by
  exact ⟨by decide, rfl⟩

/-- C3 amended: when the new-today count exceeds the date's DAU value the
remaining-slot count goes negative and is passed to the draw unclamped;
the sampler then raises (NumPy's negative-size error, or its
empty-population error when there are no existing users) rather than
silently producing zero additional sampled users, and the error propagates
out of the activity generator. -/
theorem new_users_exceeding_dau_raises :
    (∀ (oracle : ChoiceOracle) (users_df : List User) (dau d : ℤ),
        dau < ((new_today users_df d).length : ℤ) →
        ∃ e, _sample_user_ids_on_date oracle users_df dau d = .error e)
    ∧ (∀ (σ : Type) (rng : Rng σ) (oracle : ChoiceOracle) (sess : ℕ → String)
        (start end_ : ℤ) (g : ℚ) (start_users : ℤ) (seed : Option ℤ) (s0 : σ)
        (users_df : List User) (d : ℤ), d ∈ dateRange start end_ →
        aucFun (activeUserCountsCore rng start end_ g start_users seed s0).1 d
            < ((new_today users_df d).length : ℤ) →
        ∃ e, get_user_activity_dataset rng oracle sess start end_ g start_users
              seed s0 users_df = .error e) := by
  constructor
  · intro oracle users_df dau d hlt
    cases hres : _sample_user_ids_on_date oracle users_df dau d with
    | error e => exact ⟨e, rfl⟩
    | ok uids =>
      exfalso
      obtain ⟨h0, -⟩ := on_date_ok_bounds hres
      omega
  · intro σ rng oracle sess start end_ g start_users seed s0 users_df d hd hlt
    cases hres : get_user_activity_dataset rng oracle sess start end_ g
        start_users seed s0 users_df with
    | error e => exact ⟨e, rfl⟩
    | ok t =>
      exfalso
      obtain ⟨rows, hrows, -⟩ := activity_ok_inv hres
      obtain ⟨uids, hu, -⟩ :=
        sample_user_ids_filter (dateRange_nodup start end_) hrows hd
      obtain ⟨h0, -⟩ := on_date_ok_bounds hu
      omega

/-- C3 witness: the amended statement at concrete inputs where the
new-today users outnumber the DAU slots. -/
theorem new_users_exceeding_dau_raises_witness :
    (∃ e, _sample_user_ids_on_date takeOracle
        [⟨"a1", 5⟩, ⟨"b2", 5⟩, ⟨"c3", 1⟩] 1 5 = .error e)
    ∧ ∃ e, get_user_activity_dataset rngA takeOracle (fun i => toString i)
          0 1 3 1 none 0 [⟨"a1", 0⟩, ⟨"b2", 0⟩, ⟨"c3", -1⟩] = .error e := by
  constructor
  · exact new_users_exceeding_dau_raises.1 takeOracle
      [⟨"a1", 5⟩, ⟨"b2", 5⟩, ⟨"c3", 1⟩] 1 5 (by decide)
  · have hauc : (activeUserCountsCore rngA 0 1 3 1 none 0).1 = [(0, 1)] := by
      norm_num [activeUserCountsCore, activeUserPCore, userCountsCore, dateRange,
        seedIf, rngA, drawN, cumsum, cumsumFrom, cumprod, cumprodFrom, astypeInt,
        List.range_succ]
    refine new_users_exceeding_dau_raises.2 ℕ rngA takeOracle (fun i => toString i)
      0 1 3 1 none 0 [⟨"a1", 0⟩, ⟨"b2", 0⟩, ⟨"c3", -1⟩] 0 (by decide) ?_
    rw [hauc]
    decide

/- ### Structure of a successful activity run (for C2, C4, C5) -/

lemma mem_new_today {x : String} {users_df : List User} {d : ℤ} :
    x ∈ new_today users_df d
      ↔ ∃ u_ ∈ users_df, u_.uid = x ∧ u_.activation_date = d := by
  unfold new_today
  rw [mem_npUnique]
  simp only [List.mem_map, List.mem_filter, decide_eq_true_eq]
  constructor
  · rintro ⟨u_, ⟨hu, heq⟩, rfl⟩
    exact ⟨u_, hu, rfl, by omega⟩
  · rintro ⟨u_, hu, rfl, hact⟩
    exact ⟨u_, ⟨hu, by omega⟩, rfl⟩

lemma mem_existing_pool {x : String} {users_df : List User} {d : ℤ} :
    x ∈ existing_pool users_df d
      ↔ ∃ u_ ∈ users_df, u_.uid = x ∧ u_.activation_date < d := by
  unfold existing_pool
  rw [mem_npUnique]
  simp only [List.mem_map, List.mem_filter, decide_eq_true_eq]
  constructor
  · rintro ⟨u_, ⟨hu, heq⟩, rfl⟩
    exact ⟨u_, hu, rfl, by omega⟩
  · rintro ⟨u_, hu, rfl, hact⟩
    exact ⟨u_, ⟨hu, by omega⟩, rfl⟩

lemma new_today_pool_disjoint {users_df : List User} {d : ℤ}
    (hnd : (users_df.map User.uid).Nodup) :
    ∀ x ∈ new_today users_df d, x ∉ existing_pool users_df d := by
  intro x hx hy
  obtain ⟨u1, hu1, hid1, hact1⟩ := mem_new_today.mp hx
  obtain ⟨u2, hu2, hid2, hact2⟩ := mem_existing_pool.mp hy
  have heq : u1 = u2 := List.inj_on_of_nodup_map hnd hu1 hu2 (by rw [hid1, hid2])
  rw [heq] at hact1
  omega

lemma matchCount_eq_one {users_df : List User} {x : String}
    (hnd : (users_df.map User.uid).Nodup) (hx : x ∈ users_df.map User.uid) :
    matchCount users_df x = 1 := by
  have h1 : matchCount users_df x = (users_df.map User.uid).count x := by
    unfold matchCount
    rw [← List.countP_eq_length_filter, List.count, List.countP_map]
    rfl
  rw [h1]
  exact List.count_eq_one_of_mem hnd hx

lemma mergeSessions_eq_self {users_df : List User} {rows : List Session}
    (h : ∀ r ∈ rows, matchCount users_df r.user_id = 1) :
    mergeSessions users_df rows = rows := by
  induction rows with
  | nil => rfl
  | cons r rs ih =>
    have hr := h r (List.mem_cons_self r rs)
    have ih2 := ih (fun s_ hs => h s_ (List.mem_cons_of_mem r hs))
    unfold mergeSessions at ih2 ⊢
    rw [List.flatMap_cons, hr, ih2]
    rfl

lemma attachIds_filter_map (sess : ℕ → String) (d : ℤ) :
    ∀ (i : ℕ) (rows : List (ℤ × String)),
    ((attachIds sess i rows).filter
        (fun s_ => decide (s_.session_start_date = d))).map Session.user_id
      = (rows.filter (fun r => decide (r.1 = d))).map Prod.snd := by
  intro i rows
  induction rows generalizing i with
  | nil => rfl
  | cons r rs ih =>
    by_cases h : r.1 = d
    · simp [attachIds, List.filter_cons, h, ih]
    · simp [attachIds, List.filter_cons, h, ih]

lemma attachIds_mem {sess : ℕ → String} {s_ : Session} :
    ∀ {i : ℕ} {rows : List (ℤ × String)}, s_ ∈ attachIds sess i rows →
    (s_.session_start_date, s_.user_id) ∈ rows := by
  intro i rows
  induction rows generalizing i with
  | nil => intro h; simp [attachIds] at h
  | cons r rs ih =>
    intro h
    rcases List.mem_cons.mp h with rfl | h2
    · exact List.mem_cons_self r rs
    · exact List.mem_cons_of_mem _ (ih h2)

lemma sample_rows_uid_mem {oracle : ChoiceOracle} {users_df : List User}
    {auc : ℤ → ℤ} {ds : List ℤ} {rows : List (ℤ × String)}
    (hor : ValidOracle oracle)
    (h : _sample_user_ids oracle users_df auc ds = .ok rows) :
    ∀ r ∈ rows, r.2 ∈ users_df.map User.uid := by
  intro r hr
  obtain ⟨-, uids, hu, hmem⟩ := sample_user_ids_mem h r hr
  obtain ⟨ex, rfl, -, hsub, -, -⟩ := on_date_ok hor hu
  rcases List.mem_append.mp hmem with h2 | h2
  · obtain ⟨u_, hu_, hid, -⟩ := mem_new_today.mp h2
    rw [← hid]
    exact List.mem_map_of_mem _ hu_
  · obtain ⟨u_, hu_, hid, -⟩ := mem_existing_pool.mp (hsub _ h2)
    rw [← hid]
    exact List.mem_map_of_mem _ hu_

lemma activity_ok_table {σ : Type} {rng : Rng σ} {oracle : ChoiceOracle}
    {sess : ℕ → String} {start end_ : ℤ} {g : ℚ} {start_users : ℤ}
    {seed : Option ℤ} {s0 : σ} {users_df : List User} {t : List Session}
    (hor : ValidOracle oracle) (hnd : (users_df.map User.uid).Nodup)
    (h : get_user_activity_dataset rng oracle sess start end_ g start_users
        seed s0 users_df = .ok t) :
    ∃ rows, _sample_user_ids oracle users_df
        (aucFun (activeUserCountsCore rng start end_ g start_users seed s0).1)
        (dateRange start end_) = .ok rows
      ∧ t = attachIds sess 0 rows := by
  obtain ⟨rows, hrows, ht⟩ := activity_ok_inv h
  refine ⟨rows, hrows, ?_⟩
  rw [ht]
  apply mergeSessions_eq_self
  intro s_ hs
  exact matchCount_eq_one hnd (sample_rows_uid_mem hor hrows _ (attachIds_mem hs))

/-- C2: for every date in the range, the number of session rows whose
`session_start_date` equals that date is exactly that date's
`ActiveUserCounts` value (whenever the run succeeds, with distinct user
ids and a valid without-replacement draw). -/
theorem session_count_matches_dau {σ : Type} (rng : Rng σ)
    (oracle : ChoiceOracle) (sess : ℕ → String) (start end_ : ℤ) (g : ℚ)
    (start_users : ℤ) (seed : Option ℤ) (s0 : σ) (users_df : List User)
    (t : List Session) (hor : ValidOracle oracle)
    (hnd : (users_df.map User.uid).Nodup)
    (hok : get_user_activity_dataset rng oracle sess start end_ g start_users
        seed s0 users_df = .ok t)
    (d : ℤ) (hd : d ∈ dateRange start end_) :
    ((t.filter (fun s_ => decide (s_.session_start_date = d))).length : ℤ)
      = aucFun (activeUserCountsCore rng start end_ g start_users seed s0).1 d := by
  obtain ⟨rows, hrows, ht⟩ := activity_ok_table hor hnd hok
  obtain ⟨uids, hu, hfeq⟩ :=
    sample_user_ids_filter (dateRange_nodup start end_) hrows hd
  obtain ⟨ex, heq, -, -, h0, hlenex⟩ := on_date_ok hor hu
  have hlen : ((t.filter
      (fun s_ => decide (s_.session_start_date = d))).length) = uids.length := by
    rw [ht]
    calc ((attachIds sess 0 rows).filter
            (fun s_ => decide (s_.session_start_date = d))).length
        = (((attachIds sess 0 rows).filter
            (fun s_ => decide (s_.session_start_date = d))).map Session.user_id).length := by
          rw [List.length_map]
      _ = ((rows.filter (fun r => decide (r.1 = d))).map Prod.snd).length := by
          rw [attachIds_filter_map]
      _ = uids.length := by rw [hfeq]
  rw [hlen, heq]
  push_cast [List.length_append]
  omega

/-- C4: no user id appears twice among a date's session rows — the
new-today ids are distinct, the drawn existing ids are distinct, and the
two groups are disjoint (whenever the run succeeds, with distinct user ids
and a valid without-replacement draw). -/
theorem session_users_distinct_per_date {σ : Type} (rng : Rng σ)
    (oracle : ChoiceOracle) (sess : ℕ → String) (start end_ : ℤ) (g : ℚ)
    (start_users : ℤ) (seed : Option ℤ) (s0 : σ) (users_df : List User)
    (t : List Session) (hor : ValidOracle oracle)
    (hnd : (users_df.map User.uid).Nodup)
    (hok : get_user_activity_dataset rng oracle sess start end_ g start_users
        seed s0 users_df = .ok t)
    (d : ℤ) (hd : d ∈ dateRange start end_) :
    ((t.filter (fun s_ => decide (s_.session_start_date = d))).map
        Session.user_id).Nodup := by
  obtain ⟨rows, hrows, ht⟩ := activity_ok_table hor hnd hok
  obtain ⟨uids, hu, hfeq⟩ :=
    sample_user_ids_filter (dateRange_nodup start end_) hrows hd
  rw [ht, attachIds_filter_map, hfeq]
  obtain ⟨ex, rfl, hexnd, hsub, -, -⟩ := on_date_ok hor hu
  refine List.Nodup.append ?_ hexnd ?_
  · unfold new_today
    exact npUnique_nodup _
  · intro x hx hx2
    exact new_today_pool_disjoint hnd x hx (hsub x hx2)

/-- C5: every session references a user whose activation date is on or
before the session's date — new-today users activate exactly on the date
and drawn existing users strictly before it (whenever the run succeeds,
with distinct user ids and a valid without-replacement draw). -/
theorem session_user_activated_on_or_before {σ : Type} (rng : Rng σ)
    (oracle : ChoiceOracle) (sess : ℕ → String) (start end_ : ℤ) (g : ℚ)
    (start_users : ℤ) (seed : Option ℤ) (s0 : σ) (users_df : List User)
    (t : List Session) (hor : ValidOracle oracle)
    (hnd : (users_df.map User.uid).Nodup)
    (hok : get_user_activity_dataset rng oracle sess start end_ g start_users
        seed s0 users_df = .ok t) :
    ∀ s_ ∈ t, ∀ u_ ∈ users_df, u_.uid = s_.user_id →
      u_.activation_date ≤ s_.session_start_date := by
  obtain ⟨rows, hrows, ht⟩ := activity_ok_table hor hnd hok
  intro s_ hs u_ hu_ hid
  rw [ht] at hs
  obtain ⟨-, uids, hu, hmem⟩ := sample_user_ids_mem hrows _ (attachIds_mem hs)
  obtain ⟨ex, rfl, -, hsub, -, -⟩ := on_date_ok hor hu
  rcases List.mem_append.mp hmem with h2 | h2
  · obtain ⟨w, hw, hwid, hwact⟩ := mem_new_today.mp h2
    have heq : u_ = w := List.inj_on_of_nodup_map hnd hu_ hw (by rw [hid, hwid])
    rw [heq, hwact]
  · obtain ⟨w, hw, hwid, hwact⟩ := mem_existing_pool.mp (hsub _ h2)
    have heq : u_ = w := List.inj_on_of_nodup_map hnd hu_ hw (by rw [hid, hwid])
    rw [heq]
    exact le_of_lt hwact

lemma takeOracle_valid : ValidOracle takeOracle := by
  intro pool p n hnd hle
  refine ⟨?_, hnd.sublist (List.take_sublist n pool),
    fun x hx => List.mem_of_mem_take hx⟩
  simp [takeOracle, List.length_take, Nat.min_eq_left hle]

/-- A concrete successful activity run: three legacy users, two days,
DAU 2 on both days. -/
lemma activity_run_W :
    get_user_activity_dataset rngA takeOracle sessW 0 2 3 2 none 0 usersW
      = .ok tW := by
  have hauc : (activeUserCountsCore rngA 0 2 3 2 none 0).1 = [(0, 2), (1, 2)] := by
    norm_num [activeUserCountsCore, activeUserPCore, userCountsCore, dateRange,
      seedIf, rngA, drawN, cumsum, cumsumFrom, cumprod, cumprodFrom, astypeInt,
      List.range_succ, show ((2:ℤ).toNat = 2) from rfl]
  simp only [get_user_activity_dataset]
  rw [hauc]
  rfl

/-- C2 witness: the session count of date 0 in the concrete run equals that
date's DAU value. -/
theorem session_count_matches_dau_witness :
    ((tW.filter (fun s_ => decide (s_.session_start_date = 0))).length : ℤ)
      = aucFun (activeUserCountsCore rngA 0 2 3 2 none 0).1 0 :=
  session_count_matches_dau rngA takeOracle sessW 0 2 3 2 none 0 usersW tW
    takeOracle_valid (by decide) activity_run_W 0 (by decide)

/-- C4 witness: the user ids of date 1 in the concrete run are distinct. -/
theorem session_users_distinct_per_date_witness :
    ((tW.filter (fun s_ => decide (s_.session_start_date = 1))).map
        Session.user_id).Nodup :=
  session_users_distinct_per_date rngA takeOracle sessW 0 2 3 2 none 0 usersW tW
    takeOracle_valid (by decide) activity_run_W 1 (by decide)

/-- C5 witness: a concrete session of the run references a user activated
on or before the session date. -/
theorem session_user_activated_on_or_before_witness :
    (⟨"a1", -3⟩ : User).activation_date
      ≤ (⟨"s", 0, "a1"⟩ : Session).session_start_date :=
  session_user_activated_on_or_before rngA takeOracle sessW 0 2 3 2 none 0
    usersW tW takeOracle_valid (by decide) activity_run_W
    ⟨"s", 0, "a1"⟩ (by decide) ⟨"a1", -3⟩ (by decide) rfl

/- ### C8: seed reproducibility of the user table -/

/-- C8 counterexample: the claim quantifies over every supplied seed, but a
supplied seed of `0` is falsy in Python (`if seed:`), so none of the draw
sites reseeds, the draws consume the ambient global state, and two calls
with identical parameters and the same supplied seed `0` can return
different age columns (states 0 and 5 give ages 37 and 87). -/
theorem user_dataset_seed_zero_not_reproducible :
    (get_user_dataset rngA (fun _ => "u") 0 1 3 1 (some 0) 0).1.age
      ≠ (get_user_dataset rngA (fun _ => "u") 0 1 3 1 (some 0) 5).1.age := by
  have h1 : (get_user_dataset rngA (fun _ => "u") 0 1 3 1 (some 0) 0).1.age
      = [max (astypeInt (27 + 10 * ((1:ℕ) : ℚ))) 16] := rfl
  have h2 : (get_user_dataset rngA (fun _ => "u") 0 1 3 1 (some 0) 5).1.age
      = [max (astypeInt (27 + 10 * ((6:ℕ) : ℚ))) 16] := rfl
  have e1 : max (astypeInt (27 + 10 * ((1:ℕ) : ℚ))) 16 = 37 := by
    rw [astypeInt]
    norm_num
  have e2 : max (astypeInt (27 + 10 * ((6:ℕ) : ℚ))) 16 = 87 := by
    rw [astypeInt]
    norm_num
  rw [h1, h2, e1, e2]
  decide

/-- C8 amended: with identical parameters and the same supplied NONZERO
seed, all seeded draws are exactly reproducible — the age, country and
activation-date columns coincide across two runs regardless of each run's
ambient global random state and of the (unseeded) id streams, which is why
only the ids may differ.  (A supplied seed of 0 is falsy under `if seed:`
and is excluded; see the counterexample.) -/
theorem user_dataset_reproducible_nonzero_seed {σ : Type} (rng : Rng σ)
    (us1 us2 : ℕ → String) (start end_ : ℤ) (g : ℚ) (start_users : ℤ)
    (v : ℤ) (hv : v ≠ 0) (s0 s0' : σ) :
    (get_user_dataset rng us1 start end_ g start_users (some v) s0).1.age
        = (get_user_dataset rng us2 start end_ g start_users (some v) s0').1.age
    ∧ (get_user_dataset rng us1 start end_ g start_users (some v) s0).1.country
        = (get_user_dataset rng us2 start end_ g start_users (some v) s0').1.country
    ∧ (get_user_dataset rng us1 start end_ g start_users (some v) s0).1.activation_date
        = (get_user_dataset rng us2 start end_ g start_users (some v) s0').1.activation_date := by
  have hseed : ∀ s : σ, seedIf rng (some v) s = rng.seedFn v := by
    intro s
    simp [seedIf, hv]
  refine ⟨?_, ?_, ?_⟩ <;>
    simp only [get_user_dataset, _get_new_user_counts_by_date, userCountsCore,
      _get_age_dist_values, _get_user_country_values, _fill_activation_dates,
      hseed]

/-- C8 witness: two concrete runs with the same nonzero seed, different
ambient states and different id streams have identical age, country and
activation-date columns. -/
theorem user_dataset_reproducible_nonzero_seed_witness :
    (get_user_dataset rngA (fun _ => "u") 0 2 3 1 (some 7) 0).1.age
        = (get_user_dataset rngA (fun _ => "x") 0 2 3 1 (some 7) 99).1.age
    ∧ (get_user_dataset rngA (fun _ => "u") 0 2 3 1 (some 7) 0).1.country
        = (get_user_dataset rngA (fun _ => "x") 0 2 3 1 (some 7) 99).1.country
    ∧ (get_user_dataset rngA (fun _ => "u") 0 2 3 1 (some 7) 0).1.activation_date
        = (get_user_dataset rngA (fun _ => "x") 0 2 3 1 (some 7) 99).1.activation_date :=
  user_dataset_reproducible_nonzero_seed rngA (fun _ => "u") (fun _ => "x")
    0 2 3 1 7 (by decide) 0 99

end SaaSim
